import Mathlib

/-!
Verification of the twinfield-metrics repository (src/main.py, src/twinfield.py).

The development is a shallow embedding of the two Python modules:

* `twinfield.py`: the session client (`start_session`, `end_session`,
  `has_session`) and the template renderer (`render_to_string`).  Python
  object mutation is modelled as explicit state passing on `TwState`; a
  raised Python exception is modelled as an `Option PyError` (for the
  mutating methods, which leave the object in its pre-raise state) or an
  `Except PyError` result (for `render_to_string`, which is pure).
* `main.py`: the ledger aggregation (`get_ledger`) and the month-selection
  logic of `main`.  The network/XML environment is abstracted as a
  `LedgerEnv`: the parsed `<tr>` rows of the discovery response and of each
  month's response, plus the semantics of Python's `float` on the numeric
  strings appearing in the responses (`pyfloat`, partial since `float`
  raises `ValueError` on malformed input).  Numeric values are modelled as
  rationals ℚ standing for the exact values produced by the float
  arithmetic of the source; the rounding of `int(round(x))` follows the
  Python 3 semantics of `round` (`main.py` imports `requests_xml`, a
  Python-3-only package): round to nearest, ties to even.

Python scoping subtleties of `get_ledger` are reproduced exactly: the loop
variable `save` survives between rows and between months (it is only reset
by a row that has at least one cell), and `if save:` tests Python
truthiness, so an empty-string key is never accumulated.
-/

namespace Twinfield

/-- The Python exception classes that can escape from the modelled code.
`twinfieldError` is `TwinfieldError` from twinfield.py; `twinfieldLogonError`
is its subclass `TwinfieldLogonError` (defined in the source but never
raised anywhere). The others are builtin / library exceptions. -/
inductive PyError where
  | keyError
  | valueError
  | attributeError
  | connectionError
  | fileNotFoundError
  | twinfieldError
  | twinfieldLogonError
deriving DecidableEq

/-! ### Template renderer (twinfield.py, render_to_string) -/

/-- A parsed `string.Template` body: literal text interleaved with `$name`
placeholders.  The repository's templates use only plain `$name`
substitution, mirrored here. -/
inductive TplToken where
  | lit (s : String)
  | placeholder (n : String)
deriving DecidableEq

/-- The text of the template with no substitution performed, as
`xmlfile.read()` returns it. -/
def rawText : List TplToken → String
  | [] => ""
  | .lit s :: ts => s ++ rawText ts
  | .placeholder n :: ts => "$" ++ n ++ rawText ts

/-- Model of `string.Template(...).substitute(context)`: every placeholder must have
a value in the context, otherwise `KeyError` is raised. -/
def substituteTokens (ts : List TplToken) (context : List (String × String)) :
    Except PyError String :=
  match ts with
  | [] => .ok ""
  | .lit s :: rest => (substituteTokens rest context).map (fun r => s ++ r)
  | .placeholder n :: rest =>
    match List.lookup n context with
    | none => .error .keyError
    | some v => (substituteTokens rest context).map (fun r => v ++ r)

/-- The function `render_to_string(xmlpath, context)` from twinfield.py.  The file system
is abstracted: `tpl = none` means `open` fails (`FileNotFoundError`),
`tpl = some ts` is the parsed template text.  Faithful to the source,
substitution happens only when `context` is truthy (a non-empty mapping);
with an empty or absent context the raw template text is returned. -/
def render_to_string (tpl : Option (List TplToken)) (context : List (String × String)) :
    Except PyError String :=
  match tpl with
  | none => .error .fileNotFoundError
  | some ts => if context ≠ [] then substituteTokens ts context else .ok (rawText ts)

/-! ### Session client (twinfield.py, TwinfieldApi) -/

/-- The mutable fields of a `TwinfieldApi` instance: `__sessionid`,
`_root_url`, `office`, `updated_office`. -/
structure TwState where
  sessionid : Option String
  root_url : Option String
  office : Option String
  updated_office : Bool
deriving DecidableEq

/-- Constructor `TwinfieldApi.__init__(credentials)`: no session yet, office taken from
the credentials. -/
def initApi (office : String) : TwState := ⟨none, none, some office, false⟩

/-- Predicate `TwinfieldApi.has_session`. -/
def has_session (st : TwState) : Bool := st.sessionid.isSome

/-- The parsed logon response envelope as the two lookups of
`start_session` see it: `some` if the corresponding nested path
(`soap:Envelope / soap:Header / Header / SessionID`, resp.
`soap:Envelope / soap:Body / LogonResponse / cluster`) exists. -/
structure LogonResponse where
  sessionID : Option String
  cluster : Option String
deriving DecidableEq

/-- Outcome of the `requests.post` transport call: a parsed body, or a
network-level failure (`requests` raises e.g. `ConnectionError`). -/
inductive TransportResult where
  | ok (resp : LogonResponse)
  | netError
deriving DecidableEq

/-- Method `TwinfieldApi.start_session`.  The source performs two bare dict
lookups on the parsed response; a missing path raises `KeyError`.  The
session id is assigned before the cluster is read, so a response carrying
a SessionID but no cluster leaves the session id set and then raises.
`TwinfieldLogonError` exists in the source but is raised nowhere. -/
def start_session (st : TwState) (tr : TransportResult) : TwState × Option PyError :=
  match tr with
  | .netError => (st, some .connectionError)
  | .ok resp =>
    match resp.sessionID with
    | none => (st, some .keyError)
    | some sid =>
      match resp.cluster with
      | none => (⟨some sid, st.root_url, st.office, st.updated_office⟩, some .keyError)
      | some cl => (⟨some sid, some cl, st.office, st.updated_office⟩, none)

/-- Method `TwinfieldApi.end_session`, driven by the status code of the logoff
response.  If there is no session it returns immediately.  On a non-200
status the source raises before the fields are cleared (the raise itself
evaluates `response.code`, an attribute a `requests` response does not
have, so an `AttributeError` escapes while building the `TwinfieldError`
message); either way the object still holds the session token.  Only on a
200 response are `__sessionid`, `office` and `updated_office` cleared. -/
def end_session (st : TwState) (status_code : ℕ) : TwState × Option PyError :=
  if has_session st = false then (st, none)
  else if status_code ≠ 200 then (st, some .attributeError)
  else (⟨none, st.root_url, none, false⟩, none)

/-! ### Ledger aggregation (main.py, get_ledger) -/

/-- The field identifier of the dimension cell. -/
def dim1Field : String := "fin.trs.line.dim1"

/-- The field identifier of the signed-value cell. -/
def valuesignedField : String := "fin.trs.line.valuesigned"

/-- One `<td>` cell of a response row: its optional `field` attribute and
its text content (`td.firstChild.nodeValue`). -/
structure Cell where
  field : Option String
  value : String
deriving DecidableEq

/-- One step of the account-discovery scan (main.py lines 76-84): within a
row, cells are scanned in order; the first cell whose `field` attribute is
the dimension identifier has its value appended (if not already present)
and the row scan stops (`break`); other cells are skipped. -/
def discoverRow (acc : List String) (row : List Cell) : List String :=
  match row with
  | [] => acc
  | c :: rest =>
    if c.field = some dim1Field then
      (if c.value ∈ acc then acc else acc ++ [c.value])
    else discoverRow acc rest

/-- Python's `<` on strings: lexicographic comparison of code points. -/
def pyStrLt : List Char → List Char → Bool
  | [], [] => false
  | [], _ :: _ => true
  | _ :: _, [] => false
  | c :: cs, d :: ds => if c < d then true else if d < c then false else pyStrLt cs ds

/-- Python's `<=` on strings. -/
def pyStrLe (a b : String) : Bool := !(pyStrLt b.data a.data)

/-- Stable insertion of a string into a sorted list, the building block of
the model of Python's `sorted`. -/
def insertSorted (x : String) : List String → List String
  | [] => [x]
  | y :: ys => if pyStrLe x y then x :: y :: ys else y :: insertSorted x ys

/-- Python's `sorted` on a list of strings (an insertion sort; `sorted` is
stable and the discovery list is duplicate-free, so any stable comparison
sort is extensionally the same). -/
def pySorted (l : List String) : List String := l.foldr insertSorted []

/-- The discovery pass of `get_ledger`: collect the first dimension value
of every row, duplicate-free in encounter order, then sort
(`values_to_save = sorted(values_to_save)`). -/
def values_to_save (trs : List (List Cell)) : List String :=
  pySorted (trs.foldl discoverRow [])

/-- Update `yearmonthdict[k] += v` on a dict that is modelled as an association
list with pairwise distinct keys: the entry for `k` is updated in place. -/
def updEntry (d : List (String × ℚ)) (k : String) (v : ℚ) : List (String × ℚ) :=
  d.map (fun kv => if kv.1 = k then (kv.1, kv.2 + v) else kv)

/-- The dimension scan of a month row (main.py lines 106-112): the first
cell whose `field` is the dimension identifier decides -- its value if it
is a discovered account, `None` otherwise -- and the scan stops.  A row
without a dimension cell ends with `save = None` (the last iteration set
it).  Only called on non-empty rows. -/
def scanRow (vts : List String) : List Cell → Option String
  | [] => none
  | c :: rest =>
    if c.field = some dim1Field then
      (if c.value ∈ vts then some c.value else none)
    else scanRow vts rest

/-- The value of the Python variable `save` after a row's cell loop.  The
loop body reassigns `save` only if the row has at least one cell; on a row
with no cells `save` keeps the value left over from the previous row
(Python function-level scoping). -/
def rowSave (vts : List String) (save : Option String) (row : List Cell) : Option String :=
  match row with
  | [] => save
  | _ :: _ => scanRow vts row

/-- The signed-value scan (main.py lines 114-118): first cell whose `field`
is the signed-value identifier wins, then `break`. -/
def findSigned : List Cell → Option String
  | [] => none
  | c :: rest => if c.field = some valuesignedField then some c.value else findSigned rest

/-- The accumulation step guarded by `if save:` (Python truthiness: `None`
and the empty string are falsy).  `float(...)` on a malformed numeric cell
raises `ValueError`. -/
def accumRow (pyfloat : String → Option ℚ) (d : List (String × ℚ))
    (save : Option String) (row : List Cell) : Except PyError (List (String × ℚ)) :=
  match save with
  | none => .ok d
  | some k =>
    if k = "" then .ok d
    else
      match findSigned row with
      | none => .ok d
      | some v =>
        match pyfloat v with
        | none => .error .valueError
        | some q => .ok (updEntry d k q)

/-- The per-month row loop of `get_ledger` (lines 104-118), threading the
dict and the leaked `save` variable through the rows. -/
def monthLoop (vts : List String) (pyfloat : String → Option ℚ) :
    List (List Cell) → List (String × ℚ) × Option String →
    Except PyError (List (String × ℚ) × Option String)
  | [], st => .ok st
  | tr :: rest, (d, save0) =>
    let save := rowSave vts save0 tr
    match accumRow pyfloat d save tr with
    | .error e => .error e
    | .ok d2 => monthLoop vts pyfloat rest (d2, save)

/-- Model of `int(round(x))` with Python 3 `round` semantics (round to nearest,
ties to even), computed on the exact rational: `q.num / q.den` is `⌊q⌋`
(`Rat.floor_def`) and `r / q.den` its fractional part. -/
def pyRound (q : ℚ) : ℤ :=
  let f := q.num / (q.den : ℤ)
  let r := q.num - f * (q.den : ℤ)
  if 2 * r < (q.den : ℤ) then f
  else if (q.den : ℤ) < 2 * r then f + 1
  else if f % 2 = 0 then f else f + 1

/-- The rounding loop `for key in yearmonthdict: ... int(round(...))`. -/
def roundBucket (d : List (String × ℚ)) : List (String × ℤ) :=
  d.map (fun kv => (kv.1, pyRound kv.2))

/-- The month part of the yearmonth string: `i >= 10 and str(i) or "0%d" % i`. -/
def pad2 (i : ℕ) : String := if 10 ≤ i then toString i else "0" ++ toString i

/-- The timestamp key of a month bucket:
`str(datetime.strptime("%Y/%m/01"))`, i.e. `"YYYY-MM-01 00:00:00"`. -/
def yearmonthKey (year i : ℕ) : String :=
  toString year ++ "-" ++ pad2 i ++ "-01 00:00:00"

/-- Model of `dict.update(e)` on association lists: existing keys keep their
position and take the new value, new keys are appended in order (`e` is
assumed duplicate-free in keys, which holds for every use in the source). -/
def dictUpdate {β : Type} (d e : List (String × β)) : List (String × β) :=
  d.map (fun kv => (kv.1, (List.lookup kv.1 e).getD kv.2)) ++
    e.filter (fun kv => (List.lookup kv.1 d).isNone)

/-- The pre-seeded month dict: `{key: 0 for key in values_to_save}`. -/
def initDict (vts : List String) : List (String × ℚ) :=
  vts.map (fun k => (k, (0 : ℚ)))

/-- The environment `get_ledger` runs against: the parsed `<tr>` rows of
the year-level discovery response, the parsed rows of each month's
response, and the value Python's `float` gives each numeric string
(`none` where `float` would raise `ValueError`). -/
structure LedgerEnv where
  discTable : List (List Cell)
  monthTable : ℕ → List (List Cell)
  pyfloat : String → Option ℚ

/-- The `for i in range(1, month+1)` loop of `get_ledger`: per month,
seed the dict, run the row loop (with the `save` variable carried over
from the previous month), round, and `month_data.update` under the month's
timestamp key. -/
def monthsFold (env : LedgerEnv) (vts : List String) (year : ℕ) :
    List ℕ → List (String × List (String × ℤ)) × Option String →
    Except PyError (List (String × List (String × ℤ)) × Option String)
  | [], st => .ok st
  | i :: rest, (md, save0) =>
    match monthLoop vts env.pyfloat (env.monthTable i) (initDict vts, save0) with
    | .error e => .error e
    | .ok (d, save) =>
      monthsFold env vts year rest
        (dictUpdate md [(yearmonthKey year i, roundBucket d)], save)

/-- Model of `get_ledger(conn, year, month, verbose)` (main.py lines 66-128): the
discovery pass, then months `1 .. month`.  After the discovery loop the
`save` variable is `None` (the discovery loop only ever assigns `None` to
it), which seeds the carried-over `save` of the first month. -/
def get_ledger (env : LedgerEnv) (year month : ℕ) :
    Except PyError (List (String × List (String × ℤ))) :=
  let vts := values_to_save env.discTable
  match monthsFold env vts year (List.range' 1 month) ([], none) with
  | .error e => .error e
  | .ok (md, _) => .ok md

/-- The month-selection logic of `main` (main.py lines 20-32): with the
current date `(nowY, nowM)`, fetch all of the previous year when the
current month is before March, then the current year up to `nowM - 1`.
`envPrev` and `envCur` are the environments of the two `get_ledger`
calls. -/
def mainMonthData (envPrev envCur : LedgerEnv) (nowY nowM : ℕ) :
    Except PyError (List (String × List (String × ℤ))) :=
  match (if nowM < 3 then (get_ledger envPrev (nowY - 1) 12).map (dictUpdate []) else .ok []) with
  | .error e => .error e
  | .ok md1 => (get_ledger envCur nowY (nowM - 1)).map (fun md2 => dictUpdate md1 md2)

/-- All `float` calls attempted in month `i` succeed (sufficient: every
signed-value cell of the month's table parses). -/
abbrev ParsesMonth (env : LedgerEnv) (i : ℕ) : Prop :=
  ∀ tr ∈ env.monthTable i, ∀ c ∈ tr,
    c.field = some valuesignedField → env.pyfloat c.value ≠ none

/-- A response row of the simplest shape: a dimension cell for account `k`
followed by a signed-value cell whose text is `r.1` (parsing to `r.2`). -/
def simpleRow (k : String) (r : String × ℚ) : List Cell :=
  [⟨some dim1Field, k⟩, ⟨some valuesignedField, r.1⟩]

/-- A test environment whose responses contain no rows at all. -/
def trivialEnv : LedgerEnv := ⟨[], fun _ => [], fun _ => none⟩

/-- A test environment with one discovered account `"A"` and, in every
month, a single row for `"A"` whose signed-value cell reads `s` and parses
to `q`. -/
def oneRowEnv (s : String) (q : ℚ) : LedgerEnv :=
  ⟨[[⟨some dim1Field, "A"⟩]],
   fun _ => [simpleRow "A" (s, q)],
   fun t => if t = s then some q else none⟩

/-- A test environment with one discovered account `"A"` and, in every
month, two rows for `"A"` each carrying the value string `"12.4"`
(parsing to 124/10). -/
def twoRowEnv : LedgerEnv :=
  ⟨[[⟨some dim1Field, "A"⟩]],
   fun _ => ([("12.4", mkRat 124 10), ("12.4", mkRat 124 10)]).map (simpleRow "A"),
   fun t => if t = "12.4" then some (mkRat 124 10) else none⟩

end Twinfield

namespace Twinfield

/-! ### Association-list dictionary lemmas -/

theorem lookup_cons_eq {β : Type} (a k : String) (b : β) (es : List (String × β)) :
    List.lookup a ((k, b) :: es) = if a = k then some b else List.lookup a es := by
  cases hab : a == k
  · have hne : ¬ a = k := by
      simp only [beq_eq_false_iff_ne, ne_eq] at hab
      exact hab
    rw [if_neg hne]
    simp [List.lookup, hab]
  · have he : a = k := by
      simp only [beq_iff_eq] at hab
      exact hab
    rw [if_pos he]
    simp [List.lookup, hab]

theorem lookup_eq_none_of_not_mem {β : Type} (k : String) (d : List (String × β))
    (h : k ∉ d.map Prod.fst) : List.lookup k d = none := by
  induction d with
  | nil => rfl
  | cons kv rest ih =>
    simp only [List.map_cons, List.mem_cons] at h
    push_neg at h
    obtain ⟨a, b⟩ := kv
    rw [lookup_cons_eq, if_neg h.1]
    exact ih h.2

theorem lookup_append_left_none {β : Type} (k : String) (d e : List (String × β))
    (h : List.lookup k d = none) : List.lookup k (d ++ e) = List.lookup k e := by
  induction d with
  | nil => rfl
  | cons kv rest ih =>
    obtain ⟨a, b⟩ := kv
    rw [List.cons_append, lookup_cons_eq]
    rw [lookup_cons_eq] at h
    by_cases hk : k = a
    · rw [if_pos hk] at h; exact absurd h (by simp)
    · rw [if_neg hk]; rw [if_neg hk] at h; exact ih h

theorem dictUpdate_nil_left {β : Type} (e : List (String × β)) : dictUpdate [] e = e := by
  unfold dictUpdate
  simp only [List.map_nil, List.nil_append]
  induction e with
  | nil => rfl
  | cons kv rest ih =>
    simp only [List.filter_cons, List.lookup, Option.isNone_none, if_pos]
    simp only [List.filter_true]

theorem dictUpdate_nil_right {β : Type} (d : List (String × β)) : dictUpdate d [] = d := by
  unfold dictUpdate
  simp [List.lookup]

theorem map_getD_eq_self {β : Type} (e : List (String × β)) :
    ∀ (d : List (String × β)), (∀ kv ∈ d, List.lookup kv.1 e = none) →
      d.map (fun kv => (kv.1, (List.lookup kv.1 e).getD kv.2)) = d
  | [], _ => rfl
  | kv :: rest, h => by
    have h1 := h kv (List.mem_cons_self kv rest)
    rw [List.map_cons, h1]
    rw [map_getD_eq_self e rest (fun x hx => h x (List.mem_cons_of_mem kv hx))]
    rfl

theorem filter_isNone_eq_self {β : Type} (d : List (String × β)) :
    ∀ (e : List (String × β)), (∀ kv ∈ e, List.lookup kv.1 d = none) →
      e.filter (fun kv => (List.lookup kv.1 d).isNone) = e
  | [], _ => rfl
  | kv :: rest, h => by
    have h1 := h kv (List.mem_cons_self kv rest)
    rw [List.filter_cons]
    rw [h1]
    rw [filter_isNone_eq_self d rest (fun x hx => h x (List.mem_cons_of_mem kv hx))]
    rfl

theorem dictUpdate_fresh {β : Type} (d e : List (String × β))
    (hde : ∀ kv ∈ d, List.lookup kv.1 e = none)
    (hed : ∀ kv ∈ e, List.lookup kv.1 d = none) :
    dictUpdate d e = d ++ e := by
  unfold dictUpdate
  rw [map_getD_eq_self e d hde, filter_isNone_eq_self d e hed]

end Twinfield

namespace Twinfield

/-! ### Claim C5: end_session and the session token on the error path -/

/-- Claim C5 counterexample: on an open session, a logoff response with a
non-200 status makes `end_session` raise, and the state it leaves behind
still carries the session token -- the token is NOT cleared on the error
path, contrary to the claim. -/
theorem c5_counterexample :
    (end_session ⟨some "S", some "R", some "O", true⟩ 500).1.sessionid = some "S" ∧
    (end_session ⟨some "S", some "R", some "O", true⟩ 500).2 ≠ none := by
  decide

/-- Claim C5 (amended): after `end_session` on an open session, the session
token is cleared only when the logoff transport call returns 200 (office
and updated_office are cleared with it); on a non-200 response an error is
raised before the clearing assignments run, so the token remains set. -/
theorem c5_theorem (st : TwState) (sid : String) (code : ℕ)
    (h : st.sessionid = some sid) :
    (code = 200 → end_session st code = (⟨none, st.root_url, none, false⟩, none)) ∧
    (code ≠ 200 →
      (end_session st code).1.sessionid = some sid ∧
      (end_session st code).2 = some PyError.attributeError) := by
  constructor
  · intro hc
    simp [end_session, has_session, h, hc]
  · intro hc
    simp [end_session, has_session, h, hc]

/-- Witness for C5 at a concrete open state and the codes 200 and 500. -/
theorem c5_witness :
    (end_session ⟨some "S", some "R", some "O", true⟩ 200 = (⟨none, some "R", none, false⟩, none)) ∧
    ((end_session ⟨some "S", some "R", some "O", true⟩ 500).1.sessionid = some "S" ∧
      (end_session ⟨some "S", some "R", some "O", true⟩ 500).2 = some PyError.attributeError) :=
  ⟨(c5_theorem ⟨some "S", some "R", some "O", true⟩ "S" 200 rfl).1 rfl,
   (c5_theorem ⟨some "S", some "R", some "O", true⟩ "S" 500 rfl).2 (by decide)⟩

/-! ### Claim C9: end_session is a no-op without a session -/

/-- Claim C9: calling `end_session` on a client without a session (never
opened, or already closed) leaves the state unchanged and reports no
error; and after a successful close, a second close is likewise a no-op,
whatever status code the (never-sent) logoff would have had. -/
theorem c9_theorem (st st' : TwState) (code code' : ℕ) (h : st.sessionid = none) :
    end_session st code = (st, none) ∧
    end_session (end_session st' 200).1 code' = ((end_session st' 200).1, none) := by
  constructor
  · simp [end_session, has_session, h]
  · rcases hs : st'.sessionid with _ | sid
    · simp [end_session, has_session, hs]
    · simp [end_session, has_session, hs]

/-- Witness for C9: a freshly constructed client, and a client that went
through a successful close, both ignore a follow-up close. -/
theorem c9_witness :
    end_session (initApi "NL001") 500 = (initApi "NL001", none) ∧
    end_session (end_session ⟨some "S", some "R", some "O", true⟩ 200).1 500 =
      ((end_session ⟨some "S", some "R", some "O", true⟩ 200).1, none) :=
  c9_theorem (initApi "NL001") ⟨some "S", some "R", some "O", true⟩ 500 500 rfl

/-! ### Claim C6: what start_session raises -/

/-- Claim C6 counterexample: a logon response without the SessionID path
makes `start_session` raise `KeyError` (a bare dict lookup failure), which
is not the Twinfield logon error class the claim requires. -/
theorem c6_counterexample :
    (start_session (initApi "NL001") (.ok ⟨none, none⟩)).2 = some PyError.keyError ∧
    some PyError.keyError ≠ some PyError.twinfieldLogonError := by
  decide

/-- Claim C6 (amended): `start_session` raises `KeyError` when the parsed
logon response lacks the SessionID path or the cluster path (in the latter
case the session id has already been assigned when the error is raised),
propagates the transport-level error when the post fails, and never raises
`TwinfieldLogonError` -- that class is defined in the source but unused. -/
theorem c6_theorem (st : TwState) :
    start_session st .netError = (st, some PyError.connectionError) ∧
    (∀ cl, start_session st (.ok ⟨none, cl⟩) = (st, some PyError.keyError)) ∧
    (∀ sid, start_session st (.ok ⟨some sid, none⟩) =
      (⟨some sid, st.root_url, st.office, st.updated_office⟩, some PyError.keyError)) ∧
    (∀ tr, (start_session st tr).2 ≠ some PyError.twinfieldLogonError) := by
  refine ⟨rfl, fun cl => rfl, fun sid => rfl, fun tr => ?_⟩
  rcases tr with ⟨sid, cl⟩ | _
  · rcases sid with _ | s
    · simp [start_session]
    · rcases cl with _ | c <;> simp [start_session]
  · simp [start_session]

/-- Witness for C6 at a fresh client and concrete malformed responses. -/
theorem c6_witness :
    start_session (initApi "NL001") .netError = (initApi "NL001", some PyError.connectionError) ∧
    (start_session (initApi "NL001") (.ok ⟨none, none⟩)).2 ≠ some PyError.twinfieldLogonError :=
  ⟨(c6_theorem (initApi "NL001")).1,
   (c6_theorem (initApi "NL001")).2.2.2 (.ok ⟨none, none⟩)⟩

/-! ### Claim C7: render_to_string error behaviour -/

/-- Claim C7 counterexample: a template with a placeholder rendered with an
empty context does not fail at all -- the source's `if context:` is falsy,
so the raw template text comes back with the placeholder unsubstituted. -/
theorem c7_counterexample :
    render_to_string (some [TplToken.placeholder "foo"]) [] = .ok "$foo" ∧
    (∀ e : PyError, render_to_string (some [TplToken.placeholder "foo"]) [] ≠ .error e) :=
  ⟨rfl, fun _ h => Except.noConfusion h⟩

theorem substituteTokens_missing (ts : List TplToken) (n : String)
    (context : List (String × String)) (hmem : TplToken.placeholder n ∈ ts)
    (hmiss : List.lookup n context = none) :
    substituteTokens ts context = .error PyError.keyError := by
  induction ts with
  | nil => cases hmem
  | cons t rest ih =>
    cases t with
    | lit s =>
      have hmem' : TplToken.placeholder n ∈ rest := by
        rcases List.mem_cons.mp hmem with h | h
        · cases h
        · exact h
      show (substituteTokens rest context).map _ = _
      rw [ih hmem']
      rfl
    | placeholder m =>
      show (match List.lookup m context with
            | none => Except.error PyError.keyError
            | some v => (substituteTokens rest context).map (fun r => v ++ r)) = _
      rcases hlm : List.lookup m context with _ | v
      · rfl
      · have hmem' : TplToken.placeholder n ∈ rest := by
          rcases List.mem_cons.mp hmem with h | h
          · cases h
            rw [hlm] at hmiss
            cases hmiss
          · exact h
        rw [ih hmem']
        rfl

/-- Claim C7 (amended): with a non-empty context lacking a value for a
referenced placeholder, substitution raises `KeyError`; a template that
cannot be located raises `FileNotFoundError`; but with an empty (or
absent) context the template text is returned verbatim, placeholders
unsubstituted, with no error.  (No `TemplateError` class exists in the
source; the failures are these builtin exceptions.) -/
theorem c7_theorem (ts : List TplToken) (n : String)
    (context : List (String × String)) (hne : context ≠ [])
    (hmem : TplToken.placeholder n ∈ ts)
    (hmiss : List.lookup n context = none) :
    render_to_string (some ts) context = .error PyError.keyError ∧
    (∀ ctx2, render_to_string none ctx2 = .error PyError.fileNotFoundError) ∧
    render_to_string (some ts) [] = .ok (rawText ts) := by
  refine ⟨?_, fun ctx2 => rfl, rfl⟩
  show (if context ≠ [] then substituteTokens ts context else .ok (rawText ts)) = _
  rw [if_pos hne]
  exact substituteTokens_missing ts n context hmem hmiss

/-- Witness for C7: the template `"$foo"` with the non-empty context
`{"bar": "1"}` raises `KeyError`; with the empty context it renders to the
raw text `"$foo"`. -/
theorem c7_witness :
    render_to_string (some [TplToken.placeholder "foo"]) [("bar", "1")] =
      .error PyError.keyError ∧
    (∀ ctx2, render_to_string none ctx2 = .error PyError.fileNotFoundError) ∧
    render_to_string (some [TplToken.placeholder "foo"]) [] =
      .ok (rawText [TplToken.placeholder "foo"]) :=
  c7_theorem [TplToken.placeholder "foo"] "foo" [("bar", "1")] (by decide)
    (List.mem_singleton.mpr rfl) rfl

/-! ### Claim C10: a requested month of 0 yields an empty dataset -/

/-- Claim C10: `get_ledger` with requested month 0 iterates over
`range(1, 1)`, which is empty, so the dataset is empty; consequently a run
in January (current month 1, so `current_month - 1 = 0`) contributes no
current-year entries and the merged dataset is exactly the prior-year
dataset. -/
theorem c10_theorem (env envPrev envCur : LedgerEnv) (year nowY : ℕ) :
    get_ledger env year 0 = .ok [] ∧
    mainMonthData envPrev envCur nowY 1 = get_ledger envPrev (nowY - 1) 12 := by
  refine ⟨rfl, ?_⟩
  have h0 : get_ledger envCur nowY 0 = .ok [] := rfl
  unfold mainMonthData
  rcases h : get_ledger envPrev (nowY - 1) 12 with e | md
  · simp [h, Except.map]
  · simp [h, Except.map, h0, dictUpdate_nil_left, dictUpdate_nil_right]

end Twinfield

namespace Twinfield

/-! ### The model of Python string comparison agrees with the String order -/

theorem pyStrLt_iff : ∀ l1 l2 : List Char, pyStrLt l1 l2 = true ↔ l1 < l2
  | [], [] => by
    constructor
    · intro h; cases h
    · intro h; cases h
  | [], c :: cs => by
    simp only [pyStrLt]
    exact iff_of_true trivial List.Lex.nil
  | c :: cs, [] => by
    constructor
    · intro h; cases h
    · intro h; cases h
  | c :: cs, d :: ds => by
    simp only [pyStrLt]
    by_cases hcd : c < d
    · simp only [if_pos hcd]
      exact iff_of_true trivial (List.Lex.rel hcd)
    · rw [if_neg hcd]
      by_cases hdc : d < c
      · simp only [if_pos hdc]
        apply iff_of_false
        · exact Bool.false_ne_true
        · intro h
          cases h with
          | cons h' => exact absurd hdc (lt_irrefl c)
          | rel h' => exact absurd h' hcd
      · rw [if_neg hdc]
        have hce : c = d := le_antisymm (le_of_not_lt hdc) (le_of_not_lt hcd)
        subst hce
        rw [pyStrLt_iff cs ds]
        constructor
        · intro h; exact List.Lex.cons h
        · intro h
          cases h with
          | cons h' => exact h'
          | rel h' => exact absurd h' hcd

theorem pyStrLe_iff (a b : String) : pyStrLe a b = true ↔ a ≤ b := by
  have h1 : pyStrLt b.data a.data = true ↔ b.toList < a.toList := pyStrLt_iff b.data a.data
  unfold pyStrLe
  rw [Bool.not_eq_true', ← Bool.not_eq_true (pyStrLt b.data a.data), h1,
    String.le_iff_toList_le]
  exact not_lt

theorem mem_insertSorted (z x : String) :
    ∀ l : List String, z ∈ insertSorted x l → z = x ∨ z ∈ l
  | [], h => by
    simp only [insertSorted] at h
    exact Or.inl (List.mem_singleton.mp h)
  | y :: ys, h => by
    simp only [insertSorted] at h
    by_cases hc : pyStrLe x y
    · rw [if_pos hc] at h
      rcases List.mem_cons.mp h with h1 | h1
      · exact Or.inl h1
      · exact Or.inr h1
    · rw [if_neg hc] at h
      rcases List.mem_cons.mp h with h1 | h1
      · exact Or.inr (h1 ▸ List.mem_cons_self y ys)
      · rcases mem_insertSorted z x ys h1 with h2 | h2
        · exact Or.inl h2
        · exact Or.inr (List.mem_cons_of_mem y h2)

theorem insertSorted_sorted (x : String) :
    ∀ l : List String, l.Sorted (· ≤ ·) → (insertSorted x l).Sorted (· ≤ ·)
  | [], _ => List.sorted_singleton x
  | y :: ys, h => by
    simp only [insertSorted]
    rcases List.sorted_cons.mp h with ⟨hy, hys⟩
    by_cases hc : pyStrLe x y
    · rw [if_pos hc]
      have hxy : x ≤ y := (pyStrLe_iff x y).mp hc
      apply List.sorted_cons.mpr
      refine ⟨?_, h⟩
      intro z hz
      rcases List.mem_cons.mp hz with h1 | h1
      · exact h1 ▸ hxy
      · exact le_trans hxy (hy z h1)
    · rw [if_neg hc]
      have hyx : y ≤ x := by
        have : ¬ x ≤ y := fun hxy => hc ((pyStrLe_iff x y).mpr hxy)
        exact le_of_not_le this
      apply List.sorted_cons.mpr
      constructor
      · intro z hz
        rcases mem_insertSorted z x ys hz with h1 | h1
        · exact h1 ▸ hyx
        · exact hy z h1
      · exact insertSorted_sorted x ys hys

theorem pySorted_sorted : ∀ l : List String, (pySorted l).Sorted (· ≤ ·)
  | [] => List.sorted_nil
  | x :: l => insertSorted_sorted x (pySorted l) (pySorted_sorted l)

/-- The discovery key list is sorted (Python's `sorted`, modelled by a
stable insertion sort on the code-point order). -/
theorem values_to_save_sorted (trs : List (List Cell)) :
    (values_to_save trs).Sorted (· ≤ ·) :=
  pySorted_sorted _

end Twinfield

namespace Twinfield

/-! ### Bucket and month-loop lemmas -/

theorem dim1_ne_valuesigned : dim1Field ≠ valuesignedField := by decide

theorem updEntry_keys (k : String) (v : ℚ) :
    ∀ d : List (String × ℚ), (updEntry d k v).map Prod.fst = d.map Prod.fst
  | [] => rfl
  | kv :: rest => by
    have h2 := updEntry_keys k v rest
    simp only [updEntry, List.map_cons] at h2 ⊢
    rw [h2]
    by_cases h : kv.1 = k
    · rw [if_pos h]
    · rw [if_neg h]

theorem updEntry_lookup_self (k : String) (v : ℚ) :
    ∀ d : List (String × ℚ),
      List.lookup k (updEntry d k v) = (List.lookup k d).map (fun q => q + v)
  | [] => rfl
  | ⟨a, b⟩ :: rest => by
    have h2 := updEntry_lookup_self k v rest
    simp only [updEntry, List.map_cons] at h2 ⊢
    by_cases h : a = k
    · subst h
      rw [if_pos rfl, lookup_cons_eq, lookup_cons_eq, if_pos rfl, if_pos rfl]
      rfl
    · rw [if_neg h, lookup_cons_eq, lookup_cons_eq,
        if_neg (fun hk => h hk.symm), if_neg (fun hk => h hk.symm)]
      exact h2

theorem updEntry_lookup_other (k k' : String) (v : ℚ) (hne : k' ≠ k) :
    ∀ d : List (String × ℚ), List.lookup k' (updEntry d k v) = List.lookup k' d
  | [] => rfl
  | ⟨a, b⟩ :: rest => by
    have h2 := updEntry_lookup_other k k' v hne rest
    simp only [updEntry, List.map_cons] at h2 ⊢
    by_cases h : a = k
    · subst h
      rw [if_pos rfl, lookup_cons_eq, lookup_cons_eq, if_neg hne, if_neg hne]
      exact h2
    · rw [if_neg h, lookup_cons_eq, lookup_cons_eq]
      by_cases hk : k' = a
      · rw [if_pos hk, if_pos hk]
      · rw [if_neg hk, if_neg hk]
        exact h2

theorem initDict_keys (vts : List String) : (initDict vts).map Prod.fst = vts := by
  induction vts with
  | nil => rfl
  | cons a rest ih => simp only [initDict, List.map_cons] at ih ⊢; rw [ih]

theorem initDict_lookup (vts : List String) (k : String) (h : k ∈ vts) :
    List.lookup k (initDict vts) = some 0 := by
  induction vts with
  | nil => cases h
  | cons a rest ih =>
    simp only [initDict, List.map_cons]
    rw [lookup_cons_eq]
    by_cases hk : k = a
    · rw [if_pos hk]
    · rw [if_neg hk]
      rcases List.mem_cons.mp h with h1 | h1
      · exact absurd h1 hk
      · exact ih h1

theorem roundBucket_keys (d : List (String × ℚ)) :
    (roundBucket d).map Prod.fst = d.map Prod.fst := by
  induction d with
  | nil => rfl
  | cons kv rest ih => simp only [roundBucket, List.map_cons] at ih ⊢; rw [ih]

theorem roundBucket_lookup (d : List (String × ℚ)) (k : String) :
    List.lookup k (roundBucket d) = (List.lookup k d).map pyRound := by
  induction d with
  | nil => rfl
  | cons kv rest ih =>
    obtain ⟨a, b⟩ := kv
    simp only [roundBucket, List.map_cons] at ih ⊢
    rw [lookup_cons_eq, lookup_cons_eq]
    by_cases hk : k = a
    · rw [if_pos hk, if_pos hk]
      rfl
    · rw [if_neg hk, if_neg hk]
      exact ih

theorem findSigned_mem : ∀ (row : List Cell) (v : String), findSigned row = some v →
    ∃ c ∈ row, c.field = some valuesignedField ∧ c.value = v
  | [], v, h => by cases h
  | c :: rest, v, h => by
    simp only [findSigned] at h
    by_cases hc : c.field = some valuesignedField
    · rw [if_pos hc] at h
      exact ⟨c, List.mem_cons_self c rest, hc, (Option.some.injEq _ _).mp h⟩
    · rw [if_neg hc] at h
      obtain ⟨c', hmem, hf, hv⟩ := findSigned_mem rest v h
      exact ⟨c', List.mem_cons_of_mem c hmem, hf, hv⟩

theorem scanRow_eq_some : ∀ (vts : List String) (row : List Cell) (k : String),
    scanRow vts row = some k →
    k ∈ vts ∧ ∃ c ∈ row, c.field = some dim1Field ∧ c.value = k
  | vts, [], k, h => by cases h
  | vts, c :: rest, k, h => by
    simp only [scanRow] at h
    by_cases hc : c.field = some dim1Field
    · rw [if_pos hc] at h
      by_cases hm : c.value ∈ vts
      · rw [if_pos hm] at h
        obtain hk := (Option.some.injEq _ _).mp h
        subst hk
        exact ⟨hm, c, List.mem_cons_self c rest, hc, rfl⟩
      · rw [if_neg hm] at h
        cases h
    · rw [if_neg hc] at h
      obtain ⟨hm, c', hmem, hf, hv⟩ := scanRow_eq_some vts rest k h
      exact ⟨hm, c', List.mem_cons_of_mem c hmem, hf, hv⟩

theorem scanRow_none_of_nodim (vts : List String) :
    ∀ row : List Cell, (∀ c ∈ row, ¬ c.field = some dim1Field) → scanRow vts row = none
  | [], _ => rfl
  | c :: rest, h => by
    simp only [scanRow]
    rw [if_neg (h c (List.mem_cons_self c rest))]
    exact scanRow_none_of_nodim vts rest (fun c' hc' => h c' (List.mem_cons_of_mem c hc'))

theorem accumRow_empty_row (pf : String → Option ℚ) (d : List (String × ℚ))
    (save : Option String) : accumRow pf d save [] = .ok d := by
  cases save with
  | none => rfl
  | some k =>
    simp only [accumRow]
    by_cases hk : k = ""
    · rw [if_pos hk]
    · rw [if_neg hk]
      rfl

theorem accumRow_ok_keys (pf : String → Option ℚ) (d d2 : List (String × ℚ))
    (save : Option String) (row : List Cell)
    (h : accumRow pf d save row = .ok d2) : d2.map Prod.fst = d.map Prod.fst := by
  cases save with
  | none => cases h; rfl
  | some k =>
    simp only [accumRow] at h
    by_cases hk : k = ""
    · rw [if_pos hk] at h; cases h; rfl
    · rw [if_neg hk] at h
      rcases hfs : findSigned row with _ | v
      · rw [hfs] at h; cases h; rfl
      · simp only [hfs] at h
        rcases hpf : pf v with _ | q
        · simp only [hpf] at h
          cases h
        · simp only [hpf, Except.ok.injEq] at h
          rw [← h]
          exact updEntry_keys k q d

theorem accumRow_ok_of_parses (pf : String → Option ℚ) (d : List (String × ℚ))
    (save : Option String) (row : List Cell)
    (hrow : ∀ c ∈ row, c.field = some valuesignedField → pf c.value ≠ none) :
    ∃ d2, accumRow pf d save row = .ok d2 := by
  cases save with
  | none => exact ⟨d, rfl⟩
  | some k =>
    simp only [accumRow]
    by_cases hk : k = ""
    · rw [if_pos hk]; exact ⟨d, rfl⟩
    · rw [if_neg hk]
      rcases hfs : findSigned row with _ | v
      · simp only [hfs]
        exact ⟨d, rfl⟩
      · obtain ⟨c, hmem, hf, hv⟩ := findSigned_mem row v hfs
        rcases hpf : pf v with _ | q
        · exact absurd (hv ▸ hpf) (hrow c hmem hf)
        · simp only [hfs, hpf]
          exact ⟨updEntry d k q, rfl⟩

theorem accumRow_lookup_other (pf : String → Option ℚ) (d d2 : List (String × ℚ))
    (save : Option String) (row : List Cell) (k : String)
    (hs : save ≠ some k) (h : accumRow pf d save row = .ok d2) :
    List.lookup k d2 = List.lookup k d := by
  cases save with
  | none => cases h; rfl
  | some k' =>
    simp only [accumRow] at h
    by_cases hk : k' = ""
    · rw [if_pos hk] at h; cases h; rfl
    · rw [if_neg hk] at h
      rcases hfs : findSigned row with _ | v
      · rw [hfs] at h; cases h; rfl
      · simp only [hfs] at h
        rcases hpf : pf v with _ | q
        · simp only [hpf] at h
          cases h
        · simp only [hpf, Except.ok.injEq] at h
          rw [← h]
          exact updEntry_lookup_other k' k q (fun he => hs (congrArg some he.symm)) d

end Twinfield

namespace Twinfield

/-! ### monthLoop lemmas -/

/-- Under the month-parses hypothesis the row loop succeeds, and it never
changes the key structure of the dict. -/
theorem monthLoop_ok (vts : List String) (pf : String → Option ℚ) :
    ∀ (trs : List (List Cell)),
      (∀ tr ∈ trs, ∀ c ∈ tr, c.field = some valuesignedField → pf c.value ≠ none) →
      ∀ (d : List (String × ℚ)) (s : Option String),
      ∃ d2 s2, monthLoop vts pf trs (d, s) = .ok (d2, s2) ∧
        d2.map Prod.fst = d.map Prod.fst
  | [], _, d, s => ⟨d, s, rfl, rfl⟩
  | tr :: rest, hp, d, s => by
    obtain ⟨d2, hacc⟩ := accumRow_ok_of_parses pf d (rowSave vts s tr) tr
      (hp tr (List.mem_cons_self tr rest))
    obtain ⟨d3, s3, hloop, hkeys⟩ := monthLoop_ok vts pf rest
      (fun tr' h' => hp tr' (List.mem_cons_of_mem tr h')) d2 (rowSave vts s tr)
    refine ⟨d3, s3, ?_, hkeys.trans (accumRow_ok_keys pf d d2 _ tr hacc)⟩
    simp only [monthLoop, hacc]
    exact hloop

/-- The dict produced by the row loop (and whether it fails) does not
depend on the `save` value carried in from before the month: only a row
with no cells reuses it, and such a row has no signed-value cell either. -/
theorem monthLoop_save_map (vts : List String) (pf : String → Option ℚ) :
    ∀ (trs : List (List Cell)) (d : List (String × ℚ)) (s s' : Option String),
      (monthLoop vts pf trs (d, s)).map Prod.fst =
        (monthLoop vts pf trs (d, s')).map Prod.fst
  | [], d, s, s' => rfl
  | [] :: rest, d, s, s' => by
    simp only [monthLoop, rowSave, accumRow_empty_row]
    exact monthLoop_save_map vts pf rest d s s'
  | (c :: cs) :: rest, d, s, s' => by
    simp only [monthLoop, rowSave]

/-- If no cell of the month tags the dimension field with value `k` (and
the carried-in `save` is not `k`), the dict entry for `k` is untouched by
the whole row loop. -/
theorem monthLoop_lookup_nodim (vts : List String) (pf : String → Option ℚ) (k : String) :
    ∀ (trs : List (List Cell)) (d d2 : List (String × ℚ)) (s s2 : Option String),
      s ≠ some k →
      (∀ tr ∈ trs, ∀ c ∈ tr, ¬(c.field = some dim1Field ∧ c.value = k)) →
      monthLoop vts pf trs (d, s) = .ok (d2, s2) →
      List.lookup k d2 = List.lookup k d
  | [], d, d2, s, s2, _, _, h => by
    cases h
    rfl
  | tr :: rest, d, d2, s, s2, hs, hrows, h => by
    have hsave : rowSave vts s tr ≠ some k := by
      cases tr with
      | nil => exact hs
      | cons c cs =>
        intro hcontra
        obtain ⟨_, c', hmem, hf, hv⟩ := scanRow_eq_some vts (c :: cs) k hcontra
        exact hrows (c :: cs) (List.mem_cons_self _ rest) c' hmem ⟨hf, hv⟩
    rcases hacc : accumRow pf d (rowSave vts s tr) tr with e | dmid
    · simp only [monthLoop, hacc] at h
      cases h
    · simp only [monthLoop, hacc] at h
      have h1 := monthLoop_lookup_nodim vts pf k rest dmid d2 (rowSave vts s tr) s2 hsave
        (fun tr' h' => hrows tr' (List.mem_cons_of_mem tr h')) h
      rw [h1]
      exact accumRow_lookup_other pf d dmid _ tr k hsave hacc

/-- On a month whose rows all have the shape `simpleRow k`, the entry for
`k` accumulates the sum of the parsed values, row by row. -/
theorem monthLoop_simple_sum (vts : List String) (pf : String → Option ℚ) (k : String)
    (hk : k ∈ vts) (hne : k ≠ "") :
    ∀ (rows : List (String × ℚ)) (d : List (String × ℚ)) (s : Option String) (q0 : ℚ),
      (∀ r ∈ rows, pf r.1 = some r.2) →
      List.lookup k d = some q0 →
      ∃ d2 s2, monthLoop vts pf (rows.map (simpleRow k)) (d, s) = .ok (d2, s2) ∧
        List.lookup k d2 = some (q0 + (rows.map Prod.snd).sum)
  | [], d, s, q0, _, hl => ⟨d, s, rfl, by simpa using hl⟩
  | (v, qv) :: rest, d, s, q0, hp, hl => by
    have hsave : rowSave vts s (simpleRow k (v, qv)) = some k := by
      simp [simpleRow, rowSave, scanRow, hk]
    have hfs : findSigned (simpleRow k (v, qv)) = some v := by
      simp [simpleRow, findSigned, dim1_ne_valuesigned]
    have hpf : pf v = some qv := hp (v, qv) (List.mem_cons_self _ _)
    have hacc : accumRow pf d (some k) (simpleRow k (v, qv)) = .ok (updEntry d k qv) := by
      simp only [accumRow, hfs, hpf]
      rw [if_neg hne]
    have hl2 : List.lookup k (updEntry d k qv) = some (q0 + qv) := by
      rw [updEntry_lookup_self, hl]
      rfl
    obtain ⟨d2, s2, hloop, hlk⟩ := monthLoop_simple_sum vts pf k hk hne rest
      (updEntry d k qv) (some k) (q0 + qv)
      (fun r hr => hp r (List.mem_cons_of_mem _ hr)) hl2
    refine ⟨d2, s2, ?_, ?_⟩
    · simp only [List.map_cons, monthLoop, hsave, hacc]
      exact hloop
    · rw [hlk, List.map_cons, List.sum_cons, add_assoc]

end Twinfield

namespace Twinfield

/-! ### Timestamp keys and the month fold -/

theorem string_data_inj {a b : String} (h : a.data = b.data) : a = b := by
  cases a
  cases b
  exact congrArg String.mk h

theorem pad2_inj : ∀ i < 13, ∀ j < 13, pad2 i = pad2 j → i = j := by decide

theorem yearmonthKey_inj (year i j : ℕ) (hi : i < 13) (hj : j < 13)
    (h : yearmonthKey year i = yearmonthKey year j) : i = j := by
  apply pad2_inj i hi j hj
  apply string_data_inj
  have hd := congrArg String.data h
  simp only [yearmonthKey, String.data_append, List.append_assoc] at hd
  have h1 := List.append_cancel_left hd
  have h2 := List.append_cancel_left h1
  exact List.append_cancel_right h2

/-- The backbone of `get_ledger`: over a duplicate-free list of months
(all below 13) whose timestamp keys are fresh for the accumulated dict,
the fold succeeds and appends one bucket per month, in order; each
appended bucket is the rounded dict of that month's row loop (with the
carried-in `save` normalised to `none`, which cannot change the dict). -/
theorem monthsFold_master (env : LedgerEnv) (vts : List String) (year : ℕ) :
    ∀ (months : List ℕ) (md : List (String × List (String × ℤ))) (s : Option String),
      (∀ i ∈ months, i < 13) →
      months.Nodup →
      (∀ i ∈ months, yearmonthKey year i ∉ md.map Prod.fst) →
      (∀ i ∈ months, ParsesMonth env i) →
      ∃ tail s2, monthsFold env vts year months (md, s) = .ok (md ++ tail, s2) ∧
        tail.map Prod.fst = months.map (yearmonthKey year) ∧
        ∀ i ∈ months, ∃ dm sm,
          monthLoop vts env.pyfloat (env.monthTable i) (initDict vts, none) = .ok (dm, sm) ∧
          List.lookup (yearmonthKey year i) tail = some (roundBucket dm)
  | [], md, s, _, _, _, _ => ⟨[], s, by simp [monthsFold], rfl, by simp⟩
  | i :: rest, md, s, hb, hnd, hfresh, hp => by
    obtain ⟨dm, sm, hloop_s, hdmkeys⟩ := monthLoop_ok vts env.pyfloat (env.monthTable i)
      (hp i (List.mem_cons_self i rest)) (initDict vts) s
    have hmap := monthLoop_save_map vts env.pyfloat (env.monthTable i) (initDict vts) none s
    rw [hloop_s] at hmap
    rcases hn : monthLoop vts env.pyfloat (env.monthTable i) (initDict vts, none) with e | p0
    · rw [hn] at hmap
      cases hmap
    · rw [hn] at hmap
      obtain ⟨dm0, sn⟩ := p0
      have hdm : dm0 = dm := by simpa [Except.map] using hmap
      rw [hdm] at hn
      have hinotr : i ∉ rest := (List.nodup_cons.mp hnd).1
      have hup : dictUpdate md [(yearmonthKey year i, roundBucket dm)] =
          md ++ [(yearmonthKey year i, roundBucket dm)] := by
        apply dictUpdate_fresh
        · intro kv hkv
          have hne2 : kv.1 ≠ yearmonthKey year i := by
            intro he
            apply hfresh i (List.mem_cons_self i rest)
            rw [← he]
            exact List.mem_map_of_mem Prod.fst hkv
          rw [lookup_cons_eq, if_neg hne2]
          rfl
        · intro kv hkv
          rcases List.mem_singleton.mp hkv with rfl
          exact lookup_eq_none_of_not_mem _ md (hfresh i (List.mem_cons_self i rest))
      obtain ⟨tail2, s2, hfold, htkeys, hti⟩ := monthsFold_master env vts year rest
        (md ++ [(yearmonthKey year i, roundBucket dm)]) sm
        (fun j hj => hb j (List.mem_cons_of_mem i hj))
        (List.nodup_cons.mp hnd).2
        (by
          intro j hj
          rw [List.map_append, List.mem_append]
          push_neg
          constructor
          · exact hfresh j (List.mem_cons_of_mem i hj)
          · intro hc
            have he : yearmonthKey year j = yearmonthKey year i := List.mem_singleton.mp hc
            have hji : j = i := yearmonthKey_inj year j i
              (hb j (List.mem_cons_of_mem i hj)) (hb i (List.mem_cons_self i rest)) he
            exact hinotr (hji ▸ hj))
        (fun j hj => hp j (List.mem_cons_of_mem i hj))
      refine ⟨(yearmonthKey year i, roundBucket dm) :: tail2, s2, ?_, ?_, ?_⟩
      · simp only [monthsFold, hloop_s, hup]
        rw [hfold, List.append_assoc]
        rfl
      · simp only [List.map_cons, htkeys]
      · intro j hj
        rcases List.mem_cons.mp hj with hji | hjr
        · subst hji
          refine ⟨dm, sn, hn, ?_⟩
          rw [lookup_cons_eq, if_pos rfl]
        · obtain ⟨dj, sj, hnj, hlj⟩ := hti j hjr
          refine ⟨dj, sj, hnj, ?_⟩
          rw [lookup_cons_eq]
          have hne : yearmonthKey year j ≠ yearmonthKey year i := by
            intro he
            have hji : j = i := yearmonthKey_inj year j i
              (hb j (List.mem_cons_of_mem i hjr)) (hb i (List.mem_cons_self i rest)) he
            exact hinotr (hji ▸ hjr)
          rw [if_neg hne]
          exact hlj

/-- `get_ledger` under the parse hypothesis: it succeeds, its keys are the
timestamps of months 1 .. month in order, and the bucket for each month is
the rounded result of that month's row loop. -/
theorem get_ledger_master (env : LedgerEnv) (year month : ℕ) (hm : month ≤ 12)
    (hp : ∀ i, 1 ≤ i → i ≤ month → ParsesMonth env i) :
    ∃ ds, get_ledger env year month = .ok ds ∧
      ds.map Prod.fst = (List.range' 1 month).map (yearmonthKey year) ∧
      ∀ i, 1 ≤ i → i ≤ month → ∃ dm sm,
        monthLoop (values_to_save env.discTable) env.pyfloat (env.monthTable i)
          (initDict (values_to_save env.discTable), none) = .ok (dm, sm) ∧
        List.lookup (yearmonthKey year i) ds = some (roundBucket dm) := by
  obtain ⟨tail, s2, hfold, htkeys, hti⟩ := monthsFold_master env
    (values_to_save env.discTable) year (List.range' 1 month) [] none
    (fun i hi => by
      have h := List.mem_range'_1.mp hi
      omega)
    (List.nodup_range' 1 month 1 Nat.one_pos)
    (fun i _ => List.not_mem_nil _)
    (fun i hi => by
      have h := List.mem_range'_1.mp hi
      exact hp i h.1 (by omega))
  rw [List.nil_append] at hfold
  refine ⟨tail, ?_, htkeys, fun i h1 h2 => ?_⟩
  · simp only [get_ledger, hfold]
  · exact hti i (List.mem_range'_1.mpr ⟨h1, by omega⟩)

end Twinfield

namespace Twinfield

/-! ### pyRound lemmas -/

theorem pyRound_floor (q : ℚ) : q.num / (q.den : ℤ) = ⌊q⌋ := Rat.floor_def.symm

theorem pyRound_zero : pyRound 0 = 0 := by decide

/-- On an exact tie (fractional part 1/2) the rounding goes to the even
neighbour, as Python 3's `round` does. -/
theorem pyRound_tie (q : ℚ) (h : q - ⌊q⌋ = 1/2) :
    pyRound q = if ⌊q⌋ % 2 = 0 then ⌊q⌋ else ⌊q⌋ + 1 := by
  have hdenQ : ((q.den : ℚ)) ≠ 0 := by
    exact_mod_cast Nat.pos_iff_ne_zero.mp q.den_pos
  have hnum : (q.num : ℚ) = q * (q.den : ℚ) := (div_eq_iff hdenQ).mp (Rat.num_div_den q)
  have key : 2 * (q.num - ⌊q⌋ * (q.den : ℤ)) = (q.den : ℤ) := by
    have hcast : ((2 * (q.num - ⌊q⌋ * (q.den : ℤ)) : ℤ) : ℚ) = (((q.den : ℤ) : ℤ) : ℚ) := by
      push_cast
      rw [hnum]
      have hring : 2 * (q * (q.den : ℚ) - (⌊q⌋ : ℚ) * (q.den : ℚ)) =
          2 * (q.den : ℚ) * (q - (⌊q⌋ : ℚ)) := by ring
      rw [hring, h]
      ring
    exact_mod_cast hcast
  simp only [pyRound]
  rw [pyRound_floor, key]
  rw [if_neg (lt_irrefl _), if_neg (lt_irrefl _)]

end Twinfield

namespace Twinfield

/-! ### Claim C2: month buckets carry exactly the discovered key set -/

/-- Claim C2: for every month `m` of the fetched range, the dataset has a
bucket under `m`'s timestamp whose key list is exactly the year's
discovery list (sorted); and every discovered account with no dimension
cell in month `m`'s rows still appears, with value 0. -/
theorem c2_theorem (env : LedgerEnv) (year N m : ℕ)
    (h1 : 1 ≤ m) (h2 : m ≤ N) (h3 : N ≤ 12)
    (hp : ∀ i, 1 ≤ i → i ≤ N → ParsesMonth env i) :
    ∃ ds b, get_ledger env year N = .ok ds ∧
      List.lookup (yearmonthKey year m) ds = some b ∧
      b.map Prod.fst = values_to_save env.discTable ∧
      (b.map Prod.fst).Sorted (· ≤ ·) ∧
      (∀ k ∈ values_to_save env.discTable,
        (∀ tr ∈ env.monthTable m, ∀ c ∈ tr, ¬(c.field = some dim1Field ∧ c.value = k)) →
        List.lookup k b = some 0) := by
  obtain ⟨ds, hgl, hkeys, hbuckets⟩ := get_ledger_master env year N h3 hp
  obtain ⟨dm, sm, hml, hlk⟩ := hbuckets m h1 h2
  obtain ⟨d2, s2x, hml2, hkeys2⟩ := monthLoop_ok (values_to_save env.discTable) env.pyfloat
    (env.monthTable m) (hp m h1 h2) (initDict (values_to_save env.discTable)) none
  rw [hml] at hml2
  have hd2 : dm = d2 := by
    have := (Except.ok.injEq _ _).mp hml2
    exact (Prod.mk.injEq _ _ _ _).mp this |>.1
  have hdmkeys : dm.map Prod.fst = values_to_save env.discTable := by
    rw [hd2, hkeys2, initDict_keys]
  refine ⟨ds, roundBucket dm, hgl, hlk, ?_, ?_, ?_⟩
  · rw [roundBucket_keys, hdmkeys]
  · rw [roundBucket_keys, hdmkeys]
    exact values_to_save_sorted env.discTable
  · intro k hkmem hnodim
    have hz : List.lookup k dm = some 0 := by
      have hpres := monthLoop_lookup_nodim (values_to_save env.discTable) env.pyfloat k
        (env.monthTable m) (initDict (values_to_save env.discTable)) dm none sm
        (by simp) hnodim hml
      rw [hpres]
      exact initDict_lookup _ k hkmem
    rw [roundBucket_lookup, hz]
    simp [pyRound_zero]

/-- Witness for C2 on the two-row test environment. -/
theorem c2_witness :
    ∃ ds b, get_ledger twoRowEnv 2024 1 = .ok ds ∧
      List.lookup (yearmonthKey 2024 1) ds = some b ∧
      b.map Prod.fst = values_to_save twoRowEnv.discTable ∧
      (b.map Prod.fst).Sorted (· ≤ ·) ∧
      (∀ k ∈ values_to_save twoRowEnv.discTable,
        (∀ tr ∈ twoRowEnv.monthTable 1, ∀ c ∈ tr, ¬(c.field = some dim1Field ∧ c.value = k)) →
        List.lookup k b = some 0) :=
  c2_theorem twoRowEnv 2024 1 1 le_rfl le_rfl (by decide)
    (fun i hi1 hi2 => (by decide : ParsesMonth twoRowEnv 0))

/-! ### Claim C3: per-account summation within a month, rounded once -/

/-- Claim C3: when month `m`'s rows all carry the same account `k`, the
bucket entry for `k` is the single rounding of the exact sum of the
rows' parsed values (summed first, rounded once at the end). -/
theorem c3_theorem (env : LedgerEnv) (year N m : ℕ) (k : String)
    (rows : List (String × ℚ))
    (h1 : 1 ≤ m) (h2 : m ≤ N) (h3 : N ≤ 12)
    (hp : ∀ i, 1 ≤ i → i ≤ N → ParsesMonth env i)
    (hk : k ∈ values_to_save env.discTable) (hne : k ≠ "")
    (hrows : env.monthTable m = rows.map (simpleRow k))
    (hpf : ∀ r ∈ rows, env.pyfloat r.1 = some r.2) :
    ∃ ds b, get_ledger env year N = .ok ds ∧
      List.lookup (yearmonthKey year m) ds = some b ∧
      List.lookup k b = some (pyRound ((rows.map Prod.snd).sum)) := by
  obtain ⟨ds, hgl, hkeys, hbuckets⟩ := get_ledger_master env year N h3 hp
  obtain ⟨dm, sm, hml, hlk⟩ := hbuckets m h1 h2
  obtain ⟨d2, s2, hml2, hlook⟩ := monthLoop_simple_sum (values_to_save env.discTable)
    env.pyfloat k hk hne rows (initDict (values_to_save env.discTable)) none 0 hpf
    (initDict_lookup _ k hk)
  rw [hrows] at hml
  rw [hml] at hml2
  have hd2 : dm = d2 := by
    have := (Except.ok.injEq _ _).mp hml2
    exact (Prod.mk.injEq _ _ _ _).mp this |>.1
  refine ⟨ds, roundBucket dm, hgl, hlk, ?_⟩
  rw [roundBucket_lookup, hd2, hlook]
  simp

/-- The exact sum of the two 12.4 rows rounds to 25 (not 12 + 12 = 24). -/
theorem twelvePointFour_sum :
    pyRound ((([("12.4", mkRat 124 10), ("12.4", mkRat 124 10)] :
      List (String × ℚ)).map Prod.snd).sum) = 25 := by
  have h1 : (([("12.4", mkRat 124 10), ("12.4", mkRat 124 10)] :
      List (String × ℚ)).map Prod.snd).sum = mkRat 248 10 := by
    show mkRat 124 10 + (mkRat 124 10 + 0) = mkRat 248 10
    simp only [Rat.mkRat_eq_div]
    norm_num
  rw [h1]
  decide

/-- Witness for C3: two 12.4 rows for account "A" in one month give 25,
while per-row rounding would have given 24. -/
theorem c3_witness :
    ∃ ds b, get_ledger twoRowEnv 2024 1 = .ok ds ∧
      List.lookup (yearmonthKey 2024 1) ds = some b ∧
      List.lookup "A" b = some 25 ∧
      (25 : ℤ) ≠ pyRound (mkRat 124 10) + pyRound (mkRat 124 10) := by
  obtain ⟨ds, b, hgl, hds, hb⟩ := c3_theorem twoRowEnv 2024 1 1 "A"
    [("12.4", mkRat 124 10), ("12.4", mkRat 124 10)] le_rfl le_rfl (by decide)
    (fun i hi1 hi2 => (by decide : ParsesMonth twoRowEnv 0)) (by decide) (by decide) rfl
    (by decide)
  rw [twelvePointFour_sum] at hb
  exact ⟨ds, b, hgl, hds, hb, by decide⟩

end Twinfield

namespace Twinfield

/-! ### Claim C4: tie behaviour of the rounding -/

/-- Claim C4 counterexample: a monthly sum of exactly 0.5 is rounded to 0,
not to 1 -- Python 3's `round` sends exact halves to the even neighbour. -/
theorem c4_counterexample :
    get_ledger (oneRowEnv "0.5" (mkRat 1 2)) 2024 1 =
      .ok [("2024-01-01 00:00:00", [("A", 0)])] ∧ (0 : ℤ) ≠ 1 := by
  constructor
  · with_unfolding_all rfl
  · decide

/-- Claim C4 (amended): the rounding applied to a summed bucket value is
round-to-nearest with ties to even (Python 3 `round` semantics): a month
whose single row parses to a value with fractional part exactly 1/2 is
stored as its floor when the floor is even, and floor + 1 when odd. -/
theorem c4_theorem (env : LedgerEnv) (year N m : ℕ) (k s : String) (q : ℚ)
    (h1 : 1 ≤ m) (h2 : m ≤ N) (h3 : N ≤ 12)
    (hp : ∀ i, 1 ≤ i → i ≤ N → ParsesMonth env i)
    (hk : k ∈ values_to_save env.discTable) (hne : k ≠ "")
    (hrows : env.monthTable m = [simpleRow k (s, q)])
    (hpf : env.pyfloat s = some q)
    (htie : q - ⌊q⌋ = 1/2) :
    ∃ ds b, get_ledger env year N = .ok ds ∧
      List.lookup (yearmonthKey year m) ds = some b ∧
      List.lookup k b = some (if ⌊q⌋ % 2 = 0 then ⌊q⌋ else ⌊q⌋ + 1) := by
  obtain ⟨ds, hgl, hkeys, hbuckets⟩ := get_ledger_master env year N h3 hp
  obtain ⟨dm, sm, hml, hlk⟩ := hbuckets m h1 h2
  obtain ⟨d2, s2, hml2, hlook⟩ := monthLoop_simple_sum (values_to_save env.discTable)
    env.pyfloat k hk hne [(s, q)] (initDict (values_to_save env.discTable)) none 0
    (by
      intro r hr
      rcases List.mem_singleton.mp hr with rfl
      exact hpf)
    (initDict_lookup _ k hk)
  simp only [List.map_cons, List.map_nil] at hml2
  rw [hrows] at hml
  rw [hml] at hml2
  have hd2 : dm = d2 := by
    have := (Except.ok.injEq _ _).mp hml2
    exact (Prod.mk.injEq _ _ _ _).mp this |>.1
  refine ⟨ds, roundBucket dm, hgl, hlk, ?_⟩
  rw [roundBucket_lookup, hd2, hlook]
  have hsum : (0 : ℚ) + (([(s, q)] : List (String × ℚ)).map Prod.snd).sum = q := by
    show (0 : ℚ) + (q + 0) = q
    ring
  rw [hsum]
  show some (pyRound q) = _
  rw [pyRound_tie q htie]

theorem half_floor : ⌊(mkRat 1 2 : ℚ)⌋ = 0 := by
  rw [Rat.mkRat_eq_div]
  norm_num

theorem half_tie : (mkRat 1 2 : ℚ) - ⌊(mkRat 1 2 : ℚ)⌋ = 1/2 := by
  rw [half_floor, Rat.mkRat_eq_div]
  norm_num

theorem threehalf_floor : ⌊(mkRat 3 2 : ℚ)⌋ = 1 := by
  rw [Rat.mkRat_eq_div]
  norm_num

theorem threehalf_tie : (mkRat 3 2 : ℚ) - ⌊(mkRat 3 2 : ℚ)⌋ = 1/2 := by
  rw [threehalf_floor, Rat.mkRat_eq_div]
  norm_num

/-- Witness for C4: a 0.5 month rounds to 0 (floor 0 is even) and a 1.5
month rounds to 2 (floor 1 is odd). -/
theorem c4_witness :
    (∃ ds b, get_ledger (oneRowEnv "0.5" (mkRat 1 2)) 2024 1 = .ok ds ∧
      List.lookup (yearmonthKey 2024 1) ds = some b ∧ List.lookup "A" b = some 0) ∧
    (∃ ds b, get_ledger (oneRowEnv "1.5" (mkRat 3 2)) 2024 1 = .ok ds ∧
      List.lookup (yearmonthKey 2024 1) ds = some b ∧ List.lookup "A" b = some 2) := by
  constructor
  · obtain ⟨ds, b, hgl, hds, hb⟩ := c4_theorem (oneRowEnv "0.5" (mkRat 1 2)) 2024 1 1 "A" "0.5"
      (mkRat 1 2) le_rfl le_rfl (by decide)
      (fun i hi1 hi2 => (by decide : ParsesMonth (oneRowEnv "0.5" (mkRat 1 2)) 0))
      (by decide) (by decide) rfl (by decide) half_tie
    rw [half_floor] at hb
    exact ⟨ds, b, hgl, hds, by simpa using hb⟩
  · obtain ⟨ds, b, hgl, hds, hb⟩ := c4_theorem (oneRowEnv "1.5" (mkRat 3 2)) 2024 1 1 "A" "1.5"
      (mkRat 3 2) le_rfl le_rfl (by decide)
      (fun i hi1 hi2 => (by decide : ParsesMonth (oneRowEnv "1.5" (mkRat 3 2)) 0))
      (by decide) (by decide) rfl (by decide) threehalf_tie
    rw [threehalf_floor] at hb
    exact ⟨ds, b, hgl, hds, by simpa using hb⟩

/-! ### Claim C8: rows without a dimension cell are skipped harmlessly -/

/-- Claim C8: removing a row that has no cell tagged with the dimension
field identifier (in particular a row with no cells at all) from a month's
row list leaves the accumulated dict -- and whether the loop fails --
unchanged, for every starting dict and carried-in `save`. -/
theorem c8_theorem (vts : List String) (pf : String → Option ℚ)
    (trs1 trs2 : List (List Cell)) (bad : List Cell)
    (d : List (String × ℚ)) (s : Option String)
    (hbad : ∀ c ∈ bad, ¬ c.field = some dim1Field) :
    (monthLoop vts pf (trs1 ++ bad :: trs2) (d, s)).map Prod.fst =
      (monthLoop vts pf (trs1 ++ trs2) (d, s)).map Prod.fst := by
  induction trs1 generalizing d s with
  | nil =>
    have hacc : accumRow pf d (rowSave vts s bad) bad = .ok d := by
      cases bad with
      | nil => exact accumRow_empty_row pf d s
      | cons c cs =>
        have hscan : rowSave vts s (c :: cs) = none :=
          scanRow_none_of_nodim vts (c :: cs) hbad
        rw [hscan]
        rfl
    show (monthLoop vts pf (bad :: trs2) (d, s)).map Prod.fst = _
    simp only [monthLoop, hacc]
    exact monthLoop_save_map vts pf trs2 d (rowSave vts s bad) s
  | cons tr trs1x ih =>
    simp only [List.cons_append, monthLoop]
    rcases hacc : accumRow pf d (rowSave vts s tr) tr with e | d2 <;> simp only [hacc]
    exact ih d2 (rowSave vts s tr)

/-- Witness for C8: dropping an empty row, and dropping a row whose only
cell is a signed-value cell, both leave the month's accumulation alone. -/
theorem c8_witness :
    ((monthLoop ["A"] (fun t => if t = "12.4" then some (mkRat 124 10) else none)
        ([[⟨some dim1Field, "A"⟩, ⟨some valuesignedField, "12.4"⟩]] ++ [] ::
          [[⟨some dim1Field, "A"⟩, ⟨some valuesignedField, "12.4"⟩]])
        (initDict ["A"], none)).map Prod.fst =
      (monthLoop ["A"] (fun t => if t = "12.4" then some (mkRat 124 10) else none)
        ([[⟨some dim1Field, "A"⟩, ⟨some valuesignedField, "12.4"⟩]] ++
          [[⟨some dim1Field, "A"⟩, ⟨some valuesignedField, "12.4"⟩]])
        (initDict ["A"], none)).map Prod.fst) ∧
    ((monthLoop ["A"] (fun t => if t = "12.4" then some (mkRat 124 10) else none)
        ([] ++ [⟨some valuesignedField, "9.9"⟩] :: [[⟨some dim1Field, "A"⟩,
          ⟨some valuesignedField, "12.4"⟩]])
        (initDict ["A"], none)).map Prod.fst =
      (monthLoop ["A"] (fun t => if t = "12.4" then some (mkRat 124 10) else none)
        ([] ++ [[⟨some dim1Field, "A"⟩, ⟨some valuesignedField, "12.4"⟩]])
        (initDict ["A"], none)).map Prod.fst) :=
  ⟨ c8_theorem ["A"] (fun t => if t = "12.4" then some (mkRat 124 10) else none)
      [[⟨some dim1Field, "A"⟩, ⟨some valuesignedField, "12.4"⟩]]
      [[⟨some dim1Field, "A"⟩, ⟨some valuesignedField, "12.4"⟩]] []
      (initDict ["A"]) none (by decide),
   c8_theorem ["A"] (fun t => if t = "12.4" then some (mkRat 124 10) else none)
      [] [[⟨some dim1Field, "A"⟩, ⟨some valuesignedField, "12.4"⟩]]
      [⟨some valuesignedField, "9.9"⟩]
      (initDict ["A"]) none (by decide)⟩

end Twinfield

namespace Twinfield

/-! ### Claim C1: what a February run fetches -/

/-- Claim C1 counterexample: a run dated 2024-02-15 does not produce two
timestamp keys.  `get_ledger(conn, current_year-1, 12)` loops over months
1 .. 12 of 2023, so the dataset has thirteen keys, not the claimed two. -/
theorem c1_counterexample :
    (mainMonthData trivialEnv trivialEnv 2024 2).map (fun ds => ds.map Prod.fst) =
      .ok ["2023-01-01 00:00:00", "2023-02-01 00:00:00", "2023-03-01 00:00:00",
           "2023-04-01 00:00:00", "2023-05-01 00:00:00", "2023-06-01 00:00:00",
           "2023-07-01 00:00:00", "2023-08-01 00:00:00", "2023-09-01 00:00:00",
           "2023-10-01 00:00:00", "2023-11-01 00:00:00", "2023-12-01 00:00:00",
           "2024-01-01 00:00:00"] ∧
    (["2023-01-01 00:00:00", "2023-02-01 00:00:00", "2023-03-01 00:00:00",
      "2023-04-01 00:00:00", "2023-05-01 00:00:00", "2023-06-01 00:00:00",
      "2023-07-01 00:00:00", "2023-08-01 00:00:00", "2023-09-01 00:00:00",
      "2023-10-01 00:00:00", "2023-11-01 00:00:00", "2023-12-01 00:00:00",
      "2024-01-01 00:00:00"] : List String) ≠
      ["2023-12-01 00:00:00", "2024-01-01 00:00:00"] :=
  ⟨rfl, by decide⟩

/-- Claim C1 (amended): for a run executed with current date 2024-02
(current month February 2024), the program fetches months 1 through 12 of
the prior year plus current-year month 1, so the Monthly Dataset has
exactly thirteen timestamp keys: 2023-01-01 through 2023-12-01 and
2024-01-01, in that order. -/
theorem c1_theorem (envPrev envCur : LedgerEnv)
    (hp : ∀ i, 1 ≤ i → i ≤ 12 → ParsesMonth envPrev i)
    (hc : ParsesMonth envCur 1) :
    ∃ ds, mainMonthData envPrev envCur 2024 2 = .ok ds ∧
      ds.map Prod.fst =
        ["2023-01-01 00:00:00", "2023-02-01 00:00:00", "2023-03-01 00:00:00",
         "2023-04-01 00:00:00", "2023-05-01 00:00:00", "2023-06-01 00:00:00",
         "2023-07-01 00:00:00", "2023-08-01 00:00:00", "2023-09-01 00:00:00",
         "2023-10-01 00:00:00", "2023-11-01 00:00:00", "2023-12-01 00:00:00",
         "2024-01-01 00:00:00"] := by
  obtain ⟨ds1, hgl1, hkeys1, hb1⟩ := get_ledger_master envPrev 2023 12 (by norm_num) hp
  obtain ⟨ds2, hgl2, hkeys2, hb2⟩ := get_ledger_master envCur 2024 1 (by norm_num)
    (fun i hi1 hi2 => by
      have hieq : i = 1 := le_antisymm hi2 hi1
      exact hieq ▸ hc)
  have hk1 : ds1.map Prod.fst =
      ["2023-01-01 00:00:00", "2023-02-01 00:00:00", "2023-03-01 00:00:00",
       "2023-04-01 00:00:00", "2023-05-01 00:00:00", "2023-06-01 00:00:00",
       "2023-07-01 00:00:00", "2023-08-01 00:00:00", "2023-09-01 00:00:00",
       "2023-10-01 00:00:00", "2023-11-01 00:00:00", "2023-12-01 00:00:00"] :=
    hkeys1.trans (by decide)
  have hk2 : ds2.map Prod.fst = ["2024-01-01 00:00:00"] := hkeys2.trans (by decide)
  have hdisj1 : ∀ x ∈ (["2023-01-01 00:00:00", "2023-02-01 00:00:00", "2023-03-01 00:00:00",
      "2023-04-01 00:00:00", "2023-05-01 00:00:00", "2023-06-01 00:00:00",
      "2023-07-01 00:00:00", "2023-08-01 00:00:00", "2023-09-01 00:00:00",
      "2023-10-01 00:00:00", "2023-11-01 00:00:00", "2023-12-01 00:00:00"] : List String),
      x ∉ (["2024-01-01 00:00:00"] : List String) := by decide
  have hdisj2 : ∀ x ∈ (["2024-01-01 00:00:00"] : List String),
      x ∉ (["2023-01-01 00:00:00", "2023-02-01 00:00:00", "2023-03-01 00:00:00",
      "2023-04-01 00:00:00", "2023-05-01 00:00:00", "2023-06-01 00:00:00",
      "2023-07-01 00:00:00", "2023-08-01 00:00:00", "2023-09-01 00:00:00",
      "2023-10-01 00:00:00", "2023-11-01 00:00:00", "2023-12-01 00:00:00"] : List String) := by
    decide
  have hupd : dictUpdate ds1 ds2 = ds1 ++ ds2 := by
    apply dictUpdate_fresh
    · intro kv hkv
      apply lookup_eq_none_of_not_mem
      rw [hk2]
      have hmem1 : kv.1 ∈ ds1.map Prod.fst := List.mem_map_of_mem Prod.fst hkv
      rw [hk1] at hmem1
      exact hdisj1 kv.1 hmem1
    · intro kv hkv
      apply lookup_eq_none_of_not_mem
      rw [hk1]
      have hmem2 : kv.1 ∈ ds2.map Prod.fst := List.mem_map_of_mem Prod.fst hkv
      rw [hk2] at hmem2
      exact hdisj2 kv.1 hmem2
  refine ⟨ds1 ++ ds2, ?_, ?_⟩
  · have e1 : (2024 : ℕ) - 1 = 2023 := rfl
    have e2 : (2 : ℕ) - 1 = 1 := rfl
    unfold mainMonthData
    rw [if_pos (by norm_num), e1, e2, hgl1, hgl2]
    simp only [Except.map, dictUpdate_nil_left, hupd]
  · rw [List.map_append, hk1, hk2]
    rfl

/-- Witness for C1 on the trivial environment (no rows anywhere). -/
theorem c1_witness :
    ∃ ds, mainMonthData trivialEnv trivialEnv 2024 2 = .ok ds ∧
      ds.map Prod.fst =
        ["2023-01-01 00:00:00", "2023-02-01 00:00:00", "2023-03-01 00:00:00",
         "2023-04-01 00:00:00", "2023-05-01 00:00:00", "2023-06-01 00:00:00",
         "2023-07-01 00:00:00", "2023-08-01 00:00:00", "2023-09-01 00:00:00",
         "2023-10-01 00:00:00", "2023-11-01 00:00:00", "2023-12-01 00:00:00",
         "2024-01-01 00:00:00"] :=
  c1_theorem trivialEnv trivialEnv
    (fun i hi1 hi2 => (by decide : ParsesMonth trivialEnv 0))
    (by decide)

end Twinfield

